import Mathlib

/-!
Verification development for the HyperRail repository.

Part 1 embeds the main on-chain escrow contract
(`src/contracts/src/HyperRail.sol`, the variant with expiry and refund,
lines 72-240 of the concatenated file): a `Gift` struct per claim id,
simulated HyperCore balances, and the operations `depositToSelf`,
`depositToAddress`, `createGift`, `claim`, `refund`, `getGiftStatus`,
`getContractBalance`.

Machine integers are modelled as `Nat`; Solidity 0.8 checked arithmetic
is modelled by explicit reverts (`Except.error`) on underflow and on
insufficient ERC20 balances.  `block.timestamp` and `msg.sender` are
explicit parameters.  `keccak256` of the claim secret is an abstract
function parameter `h : Nat → Nat`.
-/

namespace HyperRail

/-- The `Gift` struct of the contract.  A Solidity mapping returns the
all-zero struct for an absent key, so gift storage below is a total
function `Nat → Gift` with `Gift.zero` as the default. -/
structure Gift where
  amount : Nat
  sender : Nat
  expiry : Nat
  claimed : Bool
deriving DecidableEq, Repr

def Gift.zero : Gift := ⟨0, 0, 0, false⟩

/-- Contract state: the contract's own address `self`, the ERC20 USDC
balance map, the gift mapping, and the simulated HyperCore balances. -/
structure RailState where
  self : Nat
  usdc : Nat → Nat
  gifts : Nat → Gift
  hyperCore : Nat → Nat

/-- Pointwise map update. -/
def upd {α : Type} (f : Nat → α) (k : Nat) (v : α) : Nat → α :=
  fun x => if x = k then v else f x

/-- ERC20 transfer with checked semantics: reverts (returns `none`)
when the source balance is insufficient; handles `src = dst`. -/
def transferTok (bal : Nat → Nat) (src dst amt : Nat) : Option (Nat → Nat) :=
  if bal src < amt then none
  else
    let b1 := upd bal src (bal src - amt)
    some (upd b1 dst (b1 dst + amt))

/-- `depositToSelf(uint256 amount)` (caller = `msgSender`). -/
def depositToSelf (s : RailState) (msgSender amount : Nat) :
    Except String RailState :=
  if amount = 0 then .error "zero amount"
  else
    match transferTok s.usdc msgSender s.self amount with
    | none => .error "ERC20: insufficient balance"
    | some b =>
        .ok { s with usdc := b,
                     hyperCore := upd s.hyperCore msgSender
                       (s.hyperCore msgSender + amount) }

/-- `depositToAddress(address recipient, uint256 amount)`. -/
def depositToAddress (s : RailState) (msgSender recipient amount : Nat) :
    Except String RailState :=
  if amount = 0 then .error "zero amount"
  else if recipient = 0 then .error "invalid recipient"
  else
    match transferTok s.usdc msgSender s.self amount with
    | none => .error "ERC20: insufficient balance"
    | some b =>
        .ok { s with usdc := b,
                     hyperCore := upd s.hyperCore recipient
                       (s.hyperCore recipient + amount) }

/-- `createGift(bytes32 claimId, uint256 amount, uint256 expiry)`. -/
def createGift (s : RailState) (msgSender claimId amount expiry now : Nat) :
    Except String RailState :=
  if claimId = 0 then .error "invalid claimId"
  else if amount = 0 then .error "zero amount"
  else if (s.gifts claimId).amount ≠ 0 then .error "gift exists"
  else if expiry = 0 ∨ expiry > now then
    match transferTok s.usdc msgSender s.self amount with
    | none => .error "ERC20: insufficient balance"
    | some b =>
        .ok { s with usdc := b,
                     gifts := upd s.gifts claimId
                       ⟨amount, msgSender, expiry, false⟩ }
  else .error "invalid expiry"

/-- `claim(bytes32 claimSecret, address walletAddress)`; `h` models
`keccak256(abi.encodePacked ·)`. -/
def claim (s : RailState) (h : Nat → Nat) (claimSecret walletAddress now : Nat) :
    Except String RailState :=
  if walletAddress = 0 then .error "invalid wallet"
  else if (s.gifts (h claimSecret)).amount = 0 then .error "gift not found"
  else if (s.gifts (h claimSecret)).claimed then .error "already claimed"
  else if (s.gifts (h claimSecret)).expiry = 0 ∨
      now ≤ (s.gifts (h claimSecret)).expiry then
    .ok { s with gifts := upd s.gifts (h claimSecret)
                   { s.gifts (h claimSecret) with claimed := true },
                 hyperCore := upd s.hyperCore walletAddress
                   (s.hyperCore walletAddress +
                     (s.gifts (h claimSecret)).amount) }
  else .error "expired"

/-- `refund(bytes32 claimId)` (caller = `msgSender`). -/
def refund (s : RailState) (msgSender claimId now : Nat) :
    Except String RailState :=
  if (s.gifts claimId).amount = 0 then .error "gift not found"
  else if (s.gifts claimId).claimed then .error "already claimed"
  else if (s.gifts claimId).sender ≠ msgSender then .error "not sender"
  else if (s.gifts claimId).expiry = 0 then .error "no expiry set"
  else if ¬ now > (s.gifts claimId).expiry then .error "not expired"
  else
    match transferTok s.usdc s.self msgSender (s.gifts claimId).amount with
    | none => .error "ERC20: insufficient balance"
    | some b =>
        .ok { s with usdc := b,
                     gifts := upd s.gifts claimId
                       { s.gifts claimId with claimed := true } }

/-- `getGiftStatus(bytes32 claimId)` → `(exists, claimable, amount)`. -/
def getGiftStatus (s : RailState) (claimId now : Nat) : Bool × Bool × Nat :=
  let g := s.gifts claimId
  let ex : Bool := g.amount != 0
  (ex, ex && !g.claimed && (g.expiry == 0 || decide (now ≤ g.expiry)), g.amount)

/-- `getContractBalance()` = `usdc.balanceOf(address(this))`. -/
def getContractBalance (s : RailState) : Nat := s.usdc s.self

/-- `true` iff the call reverted. -/
def isErr {α : Type} : Except String α → Bool
  | .ok _ => false
  | .error _ => true

/-- Post-state extractor with a default for the revert case. -/
def postState (e : Except String RailState) (dflt : RailState) : RailState :=
  match e with
  | .ok s => s
  | .error _ => dflt

/-- One externally-triggered transition of the contract.  Callers of
`createGift` and the reverting `transferFrom`-style entry points are
external accounts, never the contract itself (the contract has no code
path that calls back into itself), hence the `≠ s.self` hypotheses.
`extTransfer` models an arbitrary ERC20 transfer not initiated by the
contract (e.g. a bridge delivering USDC): its source is never the
contract, which grants no allowances. -/
inductive Step : RailState → RailState → Prop where
  | depositToSelf (s s' : RailState) (caller amount : Nat) :
      depositToSelf s caller amount = .ok s' → Step s s'
  | depositToAddress (s s' : RailState) (caller recipient amount : Nat) :
      depositToAddress s caller recipient amount = .ok s' → Step s s'
  | createGift (s s' : RailState) (caller claimId amount expiry now : Nat) :
      caller ≠ s.self →
      createGift s caller claimId amount expiry now = .ok s' → Step s s'
  | claim (s s' : RailState) (h : Nat → Nat) (claimSecret wallet now : Nat) :
      claim s h claimSecret wallet now = .ok s' → Step s s'
  | refund (s s' : RailState) (caller claimId now : Nat) :
      refund s caller claimId now = .ok s' → Step s s'
  | extTransfer (s : RailState) (src dst amt : Nat) (b : Nat → Nat) :
      src ≠ s.self → transferTok s.usdc src dst amt = some b →
      Step s { s with usdc := b }

/-- Reachable states: any initial balances, no gifts yet. -/
inductive Reach : RailState → Prop where
  | init (self : Nat) (usdc hyperCore : Nat → Nat) :
      Reach ⟨self, usdc, fun _ => Gift.zero, hyperCore⟩
  | step (s s' : RailState) : Reach s → Step s s' → Reach s'

/-- Reflexive-transitive closure of `Step`. -/
inductive Steps : RailState → RailState → Prop where
  | refl (s : RailState) : Steps s s
  | tail (s s' s'' : RailState) : Steps s s' → Step s' s'' → Steps s s''

/-- Amount still owed to a pending (unresolved) entry. -/
def pendingAmt (s : RailState) (id : Nat) : Nat :=
  if (s.gifts id).claimed then 0 else (s.gifts id).amount

end HyperRail

/-!
Part 2 embeds the earlier, simple contract variant
(`src/contracts/src/HyperRail.sol`, lines 1-70 of the concatenated
file): amount-only gifts, a `claimed` flag, a `totalGiftedAmount`
accumulator, and `createGiftFromBridge` which materializes a gift from
USDC that already sits unallocated in the contract.
-/

namespace HyperRailV1

/-- State of the simple variant: `gifts` maps claim id to amount
(`0` = nonexistent), `claimed` is the resolution flag, `totalGifted`
is the contract's `totalGiftedAmount`. -/
structure LedgerV1 where
  self : Nat
  usdc : Nat → Nat
  gifts : Nat → Nat
  claimed : Nat → Bool
  totalGifted : Nat

open HyperRail (upd transferTok)

/-- `createGift(bytes32 claimId, uint256 amount)` of the simple variant. -/
def createGift (s : LedgerV1) (msgSender claimId amount : Nat) :
    Except String LedgerV1 :=
  if (s.gifts claimId) ≠ 0 then .error "exists"
  else if amount = 0 then .error "zero"
  else
    match transferTok s.usdc msgSender s.self amount with
    | none => .error "ERC20: insufficient balance"
    | some b =>
        .ok { s with usdc := b,
                     gifts := upd s.gifts claimId amount,
                     totalGifted := s.totalGifted + amount }

/-- `createGiftFromBridge(bytes32 claimId, uint256 amount, address
senderAddress)`: checks `usdc.balanceOf(this) - totalGiftedAmount ≥
amount`; the checked subtraction itself reverts when the balance is
below `totalGiftedAmount`. -/
def createGiftFromBridge (s : LedgerV1) (claimId amount _senderAddress : Nat) :
    Except String LedgerV1 :=
  if (s.gifts claimId) ≠ 0 then .error "exists"
  else if amount = 0 then .error "zero"
  else if s.usdc s.self < s.totalGifted then .error "arithmetic underflow"
  else if s.usdc s.self - s.totalGifted < amount then
    .error "insufficient deposit"
  else
    .ok { s with gifts := upd s.gifts claimId amount,
                 totalGifted := s.totalGifted + amount }

/-- `claim(bytes32 claimSecret, address to)` of the simple variant:
transfers the USDC out to `to` and debits `totalGiftedAmount`
(checked subtraction). -/
def claim (s : LedgerV1) (h : Nat → Nat) (claimSecret toAddr : Nat) :
    Except String LedgerV1 :=
  if s.gifts (h claimSecret) = 0 then .error "not found"
  else if s.claimed (h claimSecret) then .error "already claimed"
  else if s.totalGifted < s.gifts (h claimSecret) then
    .error "arithmetic underflow"
  else
    match transferTok s.usdc s.self toAddr (s.gifts (h claimSecret)) with
    | none => .error "ERC20: insufficient balance"
    | some b =>
        .ok { s with usdc := b,
                     claimed := upd s.claimed (h claimSecret) true,
                     totalGifted := s.totalGifted - s.gifts (h claimSecret) }

/-- Transitions of the simple variant; `extTransfer` again models USDC
arriving from outside (e.g. the LI.FI bridge delivering the deposit
that `createGiftFromBridge` later allocates). -/
inductive StepV1 : LedgerV1 → LedgerV1 → Prop where
  | createGift (s s' : LedgerV1) (caller claimId amount : Nat) :
      caller ≠ s.self →
      createGift s caller claimId amount = .ok s' → StepV1 s s'
  | createGiftFromBridge (s s' : LedgerV1) (claimId amount senderAddr : Nat) :
      createGiftFromBridge s claimId amount senderAddr = .ok s' → StepV1 s s'
  | claim (s s' : LedgerV1) (h : Nat → Nat) (claimSecret toAddr : Nat) :
      claim s h claimSecret toAddr = .ok s' → StepV1 s s'
  | extTransfer (s : LedgerV1) (src dst amt : Nat) (b : Nat → Nat) :
      src ≠ s.self → transferTok s.usdc src dst amt = some b →
      StepV1 s { s with usdc := b }

/-- Reachable states of the simple variant. -/
inductive ReachV1 : LedgerV1 → Prop where
  | init (self : Nat) (usdc : Nat → Nat) :
      ReachV1 ⟨self, usdc, fun _ => 0, fun _ => false, 0⟩
  | step (s s' : LedgerV1) : ReachV1 s → StepV1 s s' → ReachV1 s'

/-- Amount still owed to a pending entry of the simple variant. -/
def pendingAmtV1 (s : LedgerV1) (id : Nat) : Nat :=
  if s.claimed id then 0 else s.gifts id

end HyperRailV1

/-!
Part 3 embeds the off-chain worker
(`src/backend/hyperrail-worker/src/gift.ts`): the D1 `gifts` table
rows, `handleCreateGift`, `handleGetGift` and `handleClaim`.  HTTP
responses are a status code plus the JSON body's key/value pairs in
the order the source builds them.  `handleClaim` submits the embedded
contract's `claim` with the request's `walletAddress` as destination;
chain revert reasons are mapped to HTTP codes by the same substring
tests the source performs on `error.message`.
-/

namespace Worker

/-- A row of the D1 `gifts` table
(`INSERT INTO gifts (claim_id, sender_address, amount)`, plus the
implicit `created_at` column read back by `handleGetGift`). -/
structure DbGiftRow where
  claim_id : String
  sender_address : String
  amount : String
  created_at : String
deriving DecidableEq, Repr

/-- An HTTP response: status code and JSON body fields in order. -/
structure WResponse where
  status : Nat
  body : List (String × String)
deriving DecidableEq, Repr

/-- Value of a JSON body field, `none` when the key is absent. -/
def bodyField (r : WResponse) (k : String) : Option String :=
  (r.body.find? (fun p => p.1 == k)).map (fun p => p.2)

/-- `needle` is a prefix of `hay` (character lists). -/
def listPre : List Char → List Char → Bool
  | [], _ => true
  | _ :: _, [] => false
  | c :: cs, d :: ds => c == d && listPre cs ds

/-- `needle` occurs somewhere in `hay` (character lists). -/
def containsAux (needle : List Char) : List Char → Bool
  | [] => listPre needle []
  | c :: t => listPre needle (c :: t) || containsAux needle t

/-- `String.includes` of JavaScript: does `hay` contain `needle`? -/
def strContains (hay needle : String) : Bool :=
  containsAux needle.data hay.data

/-- One hex digit, per the character classes of `[0-9a-fA-F]`. -/
def isHexDigit (c : Char) : Bool :=
  decide (('0' ≤ c ∧ c ≤ '9') ∨ ('a' ≤ c ∧ c ≤ 'f') ∨ ('A' ≤ c ∧ c ≤ 'F'))

/-- The regex `/^0x[0-9a-fA-F]{64}$/` on `claimSecret`. -/
def matchesBytes32 (s : String) : Bool :=
  match s.data with
  | '0' :: 'x' :: rest => rest.length == 64 && rest.all isHexDigit
  | _ => false

/-- The regex `/^0x[0-9a-fA-F]{40}$/` on `walletAddress`. -/
def matchesAddress (s : String) : Bool :=
  match s.data with
  | '0' :: 'x' :: rest => rest.length == 40 && rest.all isHexDigit
  | _ => false

/-- Numeric value of one hex digit. -/
def hexVal (c : Char) : Nat :=
  if decide ('0' ≤ c ∧ c ≤ '9') then c.toNat - '0'.toNat
  else if decide ('a' ≤ c ∧ c ≤ 'f') then c.toNat - 'a'.toNat + 10
  else if decide ('A' ≤ c ∧ c ≤ 'F') then c.toNat - 'A'.toNat + 10
  else 0

/-- Value denoted by a `0x…` hex string (the bytes32/address the
worker forwards to the contract call). -/
def hexToNat (s : String) : Nat :=
  (s.data.drop 2).foldl (fun a c => a * 16 + hexVal c) 0

/-- Body of `POST /api/gift`. An absent JSON field is the empty
string, which is falsy like `undefined` in the source's checks. -/
structure CreateGiftRequest where
  claimId : String
  senderAddress : String
  amount : String

/-- Body of `POST /api/claim`. -/
structure ClaimRequest where
  claimSecret : String
  walletAddress : String

/-- Worker environment: RPC url, contract address, relayer key, and
the address `privateKeyToAccount` derives from that key. -/
structure WorkerEnv where
  hyperEvmRpc : String
  giftContract : String
  relayerKey : String
  relayerAddr : Nat

/-- Durable worker state: the D1 rows plus the on-chain contract. -/
structure WorkerState where
  db : List DbGiftRow
  chain : HyperRail.RailState

/-- `handleCreateGift`: insert a metadata row; the D1 UNIQUE
constraint on `claim_id` yields the 409. `createdAt` is the row
timestamp D1 assigns. -/
def handleCreateGift (req : CreateGiftRequest) (createdAt : String)
    (ws : WorkerState) : WResponse × WorkerState :=
  if req.claimId = "" ∨ req.senderAddress = "" ∨ req.amount = "" then
    (⟨400, [("error", "Missing required fields: claimId, senderAddress, amount")]⟩, ws)
  else if ws.db.any (fun r => r.claim_id == req.claimId) then
    (⟨409, [("error", "Gift already exists")]⟩, ws)
  else
    (⟨200, [("success", "true"), ("claimId", req.claimId)]⟩,
     { ws with db :=
        ws.db ++ [⟨req.claimId, req.senderAddress, req.amount, createdAt⟩] })

/-- `handleGetGift`: `SELECT claim_id, sender_address, amount,
created_at FROM gifts WHERE claim_id = ?`, 404 when absent. -/
def handleGetGift (claimId : String) (ws : WorkerState) : WResponse :=
  match ws.db.find? (fun r => r.claim_id == claimId) with
  | none => ⟨404, [("error", "Gift not found")]⟩
  | some r =>
      ⟨200, [("claimId", r.claim_id), ("senderAddress", r.sender_address),
             ("amount", r.amount), ("createdAt", r.created_at)]⟩

/-- `handleClaim`: validations, then a single relayer-signed
`claim(claimSecret, walletAddress)` contract call; revert reasons are
mapped to HTTP responses via `error.message.includes(...)`.  `h` is
the contract's secret hash, `now` the block timestamp, `txHash` the
hash the chain assigns to the submitted transaction. -/
def handleClaim (req : ClaimRequest) (env : WorkerEnv) (h : Nat → Nat)
    (now : Nat) (txHash : String) (ws : WorkerState) :
    WResponse × WorkerState :=
  if req.claimSecret = "" ∨ req.walletAddress = "" then
    (⟨400, [("error", "Missing required fields: claimSecret, walletAddress")]⟩, ws)
  else if ¬ matchesBytes32 req.claimSecret then
    (⟨400, [("error", "Invalid claimSecret format (expected bytes32)")]⟩, ws)
  else if ¬ matchesAddress req.walletAddress then
    (⟨400, [("error", "Invalid walletAddress format")]⟩, ws)
  else if env.relayerKey = "" ∨ env.giftContract = "" then
    (⟨503, [("error", "Relayer not configured")]⟩, ws)
  else
    match HyperRail.claim ws.chain h (hexToNat req.claimSecret)
        (hexToNat req.walletAddress) now with
    | .ok chain2 =>
        (⟨200, [("success", "true"), ("txHash", txHash)]⟩,
         { ws with chain := chain2 })
    | .error e =>
        if strContains e "not found" then
          (⟨404, [("error", "Gift not found or already claimed")]⟩, ws)
        else if strContains e "already claimed" then
          (⟨409, [("error", "Gift already claimed")]⟩, ws)
        else if strContains e "insufficient funds" then
          (⟨503, [("error", "Relayer out of gas funds")]⟩, ws)
        else
          (⟨500, [("error", "Claim failed"), ("message", e)]⟩, ws)

end Worker

/-!
Part 4: concrete fixtures used to evaluate the theorems on explicit
inputs (they mirror the repository's own test scenarios: a funded
sender, a 100-unit gift under a known claim id, an expiring gift, and
a worker with one stored metadata row).
-/

namespace HyperRailV1

/-- Post-state extractor for the simple variant. -/
def postStateV1 (e : Except String LedgerV1) (dflt : LedgerV1) : LedgerV1 :=
  match e with
  | .ok s => s
  | .error _ => dflt

end HyperRailV1

namespace Fx

/-- Sender 3 holds 1000 units of USDC. -/
def usdcA : Nat → Nat := fun x => if x = 3 then 1000 else 0

/-- Fresh main-contract deployment at address 10. -/
def s0 : HyperRail.RailState := ⟨10, usdcA, fun _ => HyperRail.Gift.zero, fun _ => 0⟩

/-- After sender 3 creates a 100-unit no-expiry gift under id 7. -/
def s1 : HyperRail.RailState :=
  HyperRail.postState (HyperRail.createGift s0 3 7 100 0 0) s0

/-- After the gift of `s1` is claimed to wallet 2. -/
def s2 : HyperRail.RailState :=
  HyperRail.postState (HyperRail.claim s1 (fun x => x) 7 2 0) s1

/-- After sender 3 creates a 100-unit gift under id 7 expiring at 5. -/
def rs1 : HyperRail.RailState :=
  HyperRail.postState (HyperRail.createGift s0 3 7 100 5 0) s0

/-- Sender 5 holds 100 units (simple variant). -/
def usdcB : Nat → Nat := fun x => if x = 5 then 100 else 0

/-- Fresh simple-variant deployment at address 20. -/
def t0 : HyperRailV1.LedgerV1 := ⟨20, usdcB, fun _ => 0, fun _ => false, 0⟩

/-- After sender 5 creates a 50-unit gift under id 1 (simple variant). -/
def t1 : HyperRailV1.LedgerV1 :=
  HyperRailV1.postStateV1 (HyperRailV1.createGift t0 5 1 50) t0

/-- Worker-side chain: a 100-unit no-expiry gift stored under id 1. -/
def chainW : HyperRail.RailState :=
  ⟨10, fun x => if x = 10 then 100 else 0,
   fun x => if x = 1 then ⟨100, 3, 0, false⟩ else HyperRail.Gift.zero,
   fun _ => 0⟩

/-- A well-formed claim request: bytes32 secret with value 1, wallet 2. -/
def reqW : Worker.ClaimRequest :=
  ⟨"0x0000000000000000000000000000000000000000000000000000000000000001",
   "0x0000000000000000000000000000000000000002"⟩

/-- Worker environment; the relayer key derives address 9. -/
def envW : Worker.WorkerEnv :=
  ⟨"https://rpc.hyperliquid-testnet.xyz/evm",
   "0x00000000000000000000000000000000000000aa", "0xrelayersecret", 9⟩

/-- Worker state: one stored metadata row plus the chain above. -/
def wsW : Worker.WorkerState :=
  ⟨[⟨"0xclaim1", "0xsenderaddr", "100.00", "2024-01-01 00:00:00"⟩], chainW⟩

/-- Worker state after a successful relayer claim. -/
def wsW2 : Worker.WorkerState :=
  (Worker.handleClaim reqW envW (fun x => x) 0 "0xtxhash1" wsW).2

end Fx

/-! ## Basic lemmas about map update and token transfer -/

namespace HyperRail

theorem upd_eq (f : Nat → α) (k : Nat) (v : α) : upd f k v k = v := by
  simp [upd]

theorem upd_ne (f : Nat → α) (k : Nat) (v : α) (x : Nat) (hx : x ≠ k) :
    upd f k v x = f x := by
  simp [upd, hx]

theorem transferTok_elim (bal : Nat → Nat) (src dst amt : Nat) (b : Nat → Nat)
    (h : transferTok bal src dst amt = some b) :
    amt ≤ bal src ∧
      b = upd (upd bal src (bal src - amt)) dst
            (upd bal src (bal src - amt) dst + amt) := by
  unfold transferTok at h
  split at h
  · exact absurd h (by simp)
  · refine ⟨by omega, ?_⟩
    simpa using h.symm

theorem transferTok_dst_ge (bal : Nat → Nat) (src dst amt : Nat)
    (b : Nat → Nat) (h : transferTok bal src dst amt = some b) :
    bal dst ≤ b dst := by
  obtain ⟨hle, rfl⟩ := transferTok_elim bal src dst amt b h
  by_cases hsd : dst = src
  · subst hsd
    simp [upd]
    omega
  · simp [upd, hsd]

theorem transferTok_other (bal : Nat → Nat) (src dst amt : Nat)
    (b : Nat → Nat) (h : transferTok bal src dst amt = some b)
    (x : Nat) (hx1 : x ≠ src) (hx2 : x ≠ dst) : b x = bal x := by
  obtain ⟨hle, rfl⟩ := transferTok_elim bal src dst amt b h
  simp [upd, hx1, hx2]

theorem transferTok_spec (bal : Nat → Nat) (src dst amt : Nat)
    (b : Nat → Nat) (h : transferTok bal src dst amt = some b)
    (hne : src ≠ dst) :
    amt ≤ bal src ∧ b src = bal src - amt ∧ b dst = bal dst + amt := by
  obtain ⟨hle, rfl⟩ := transferTok_elim bal src dst amt b h
  refine ⟨hle, ?_, ?_⟩
  · simp [upd, hne, Ne.symm hne]
  · simp [upd, hne, Ne.symm hne]

/-! ## Inversion lemmas for each contract operation -/

theorem depositToSelf_ok_elim (s s' : RailState) (c a : Nat)
    (h : depositToSelf s c a = .ok s') :
    a ≠ 0 ∧ ∃ b, transferTok s.usdc c s.self a = some b ∧
      s' = { s with usdc := b,
                    hyperCore := upd s.hyperCore c (s.hyperCore c + a) } := by
  unfold depositToSelf at h
  split at h
  · exact absurd h (by simp)
  rename_i ha
  split at h
  · exact absurd h (by simp)
  rename_i b hb
  exact ⟨ha, b, hb, by injection h with h; exact h.symm⟩

theorem depositToAddress_ok_elim (s s' : RailState) (c r a : Nat)
    (h : depositToAddress s c r a = .ok s') :
    a ≠ 0 ∧ r ≠ 0 ∧ ∃ b, transferTok s.usdc c s.self a = some b ∧
      s' = { s with usdc := b,
                    hyperCore := upd s.hyperCore r (s.hyperCore r + a) } := by
  unfold depositToAddress at h
  split at h
  · exact absurd h (by simp)
  rename_i ha
  split at h
  · exact absurd h (by simp)
  rename_i hr
  split at h
  · exact absurd h (by simp)
  rename_i b hb
  exact ⟨ha, hr, b, hb, by injection h with h; exact h.symm⟩

theorem createGift_ok_elim (s s' : RailState) (c id a e now : Nat)
    (h : createGift s c id a e now = .ok s') :
    id ≠ 0 ∧ a ≠ 0 ∧ (s.gifts id).amount = 0 ∧ (e = 0 ∨ now < e) ∧
      ∃ b, transferTok s.usdc c s.self a = some b ∧
        s' = { s with usdc := b,
                      gifts := upd s.gifts id ⟨a, c, e, false⟩ } := by
  unfold createGift at h
  split at h
  · exact absurd h (by simp)
  rename_i hid
  split at h
  · exact absurd h (by simp)
  rename_i ha
  split at h
  · exact absurd h (by simp)
  rename_i hex
  split at h
  · rename_i he
    split at h
    · exact absurd h (by simp)
    rename_i b hb
    refine ⟨hid, ha, by omega, he, b, hb, ?_⟩
    injection h with h
    exact h.symm
  · exact absurd h (by simp)

theorem claim_ok_elim (s s' : RailState) (hf : Nat → Nat)
    (sec w now : Nat) (h : claim s hf sec w now = .ok s') :
    w ≠ 0 ∧ (s.gifts (hf sec)).amount ≠ 0 ∧
      (s.gifts (hf sec)).claimed = false ∧
      ((s.gifts (hf sec)).expiry = 0 ∨ now ≤ (s.gifts (hf sec)).expiry) ∧
      s' = { s with
              gifts := upd s.gifts (hf sec)
                { s.gifts (hf sec) with claimed := true },
              hyperCore := upd s.hyperCore w
                (s.hyperCore w + (s.gifts (hf sec)).amount) } := by
  unfold claim at h
  split at h
  · exact absurd h (by simp)
  rename_i hw
  split at h
  · exact absurd h (by simp)
  rename_i hamt
  split at h
  · exact absurd h (by simp)
  rename_i hcl
  split at h
  · rename_i he
    refine ⟨hw, hamt, by simpa using hcl, he, ?_⟩
    injection h with h
    exact h.symm
  · exact absurd h (by simp)

theorem refund_ok_elim (s s' : RailState) (c id now : Nat)
    (h : refund s c id now = .ok s') :
    (s.gifts id).amount ≠ 0 ∧ (s.gifts id).claimed = false ∧
      (s.gifts id).sender = c ∧ (s.gifts id).expiry ≠ 0 ∧
      (s.gifts id).expiry < now ∧
      ∃ b, transferTok s.usdc s.self c (s.gifts id).amount = some b ∧
        s' = { s with usdc := b,
                      gifts := upd s.gifts id
                        { s.gifts id with claimed := true } } := by
  unfold refund at h
  split at h
  · exact absurd h (by simp)
  rename_i hamt
  split at h
  · exact absurd h (by simp)
  rename_i hcl
  split at h
  · exact absurd h (by simp)
  rename_i hsend
  split at h
  · exact absurd h (by simp)
  rename_i hexp
  split at h
  · exact absurd h (by simp)
  rename_i hnex
  split at h
  · exact absurd h (by simp)
  rename_i b hb
  refine ⟨hamt, by simpa using hcl, ?_, hexp, by omega, b, hb, ?_⟩
  · by_contra hne
    exact hsend (fun heq => hne heq)
  · injection h with h
    exact h.symm

/-! ## Finite-sum bookkeeping for the conservation invariant -/

theorem sum_pointwise_bump (f g : Nat → Nat) (k a : Nat)
    (hoff : ∀ x, x ≠ k → g x = f x) (hk : g k ≤ f k + a)
    (S : Finset Nat) : S.sum g ≤ S.sum f + a := by
  calc S.sum g ≤ S.sum (fun x => f x + if x = k then a else 0) := by
        refine Finset.sum_le_sum (fun i _ => ?_)
        by_cases hi : i = k
        · subst hi
          simpa using hk
        · simp [hi, hoff i hi]
    _ = S.sum f + S.sum (fun x => if x = k then a else 0) :=
        Finset.sum_add_distrib
    _ ≤ S.sum f + a := by
        rw [Finset.sum_ite_eq' S k (fun _ => a)]
        split <;> omega

theorem sum_zero_at_key (f g : Nat → Nat) (k : Nat)
    (hoff : ∀ x, x ≠ k → g x = f x) (hk : g k = 0)
    (S : Finset Nat) : S.sum g + f k ≤ (insert k S).sum f := by
  have h1 : (S.erase k).sum g = S.sum g := Finset.sum_erase _ hk
  have h2 : (S.erase k).sum g = (S.erase k).sum f :=
    Finset.sum_congr rfl (fun x hx => hoff x (Finset.ne_of_mem_erase hx))
  have h3 : f k + ((insert k S).erase k).sum f = (insert k S).sum f :=
    Finset.add_sum_erase _ f (Finset.mem_insert_self k S)
  rw [Finset.erase_insert_eq_erase] at h3
  omega

theorem sum_drop_at_key (f g : Nat → Nat) (k : Nat)
    (hoff : ∀ x, x ≠ k → g x = f x) (hk : g k = 0)
    (S : Finset Nat) : S.sum g ≤ S.sum f := by
  refine Finset.sum_le_sum (fun i _ => ?_)
  by_cases hi : i = k
  · subst hi
    omega
  · rw [hoff i hi]

/-! ## The conservation invariant of the main contract -/

theorem pendingAmt_upd (s t : RailState) (id : Nat) (g : Gift)
    (hg : t.gifts = upd s.gifts id g) (x : Nat) :
    pendingAmt t x =
      if x = id then (if g.claimed then 0 else g.amount)
      else pendingAmt s x := by
  by_cases hx : x = id <;> simp [pendingAmt, hg, upd, hx]

theorem step_self_eq (s s' : RailState) (hs : Step s s') : s'.self = s.self := by
  cases hs with
  | depositToSelf s c a h =>
      obtain ⟨-, b, -, hseq⟩ := depositToSelf_ok_elim _ _ c a h
      rw [hseq]
  | depositToAddress s c r a h =>
      obtain ⟨-, -, b, -, hseq⟩ := depositToAddress_ok_elim _ _ c r a h
      rw [hseq]
  | createGift s c id a e now hc h =>
      obtain ⟨-, -, -, -, b, -, hseq⟩ := createGift_ok_elim _ _ c id a e now h
      rw [hseq]
  | claim s hf sec w now h =>
      obtain ⟨-, -, -, -, hseq⟩ := claim_ok_elim _ _ hf sec w now h
      rw [hseq]
  | refund s c id now h =>
      obtain ⟨-, -, -, -, -, b, -, hseq⟩ := refund_ok_elim _ _ c id now h
      rw [hseq]
  | extTransfer src dst amt b hsrc hb =>
      rfl

theorem step_conservation (s s' : RailState) (hs : Step s s')
    (hinv : ∀ S : Finset Nat, S.sum (pendingAmt s) ≤ s.usdc s.self) :
    ∀ S : Finset Nat, S.sum (pendingAmt s') ≤ s'.usdc s'.self := by
  intro S
  cases hs with
  | depositToSelf s c a h =>
      obtain ⟨-, b, hb, hseq⟩ := depositToSelf_ok_elim _ _ c a h
      have hge := transferTok_dst_ge s.usdc c s.self a b hb
      have hgifts : s'.gifts = s.gifts := by rw [hseq]
      have husdc : s'.usdc = b := by rw [hseq]
      have hself : s'.self = s.self := by rw [hseq]
      have hpa : ∀ x, pendingAmt s' x = pendingAmt s x := by
        intro x
        simp [pendingAmt, hgifts]
      rw [Finset.sum_congr rfl (fun x _ => hpa x), husdc, hself]
      exact le_trans (hinv S) hge
  | depositToAddress s c r a h =>
      obtain ⟨-, -, b, hb, hseq⟩ := depositToAddress_ok_elim _ _ c r a h
      have hge := transferTok_dst_ge s.usdc c s.self a b hb
      have hgifts : s'.gifts = s.gifts := by rw [hseq]
      have husdc : s'.usdc = b := by rw [hseq]
      have hself : s'.self = s.self := by rw [hseq]
      have hpa : ∀ x, pendingAmt s' x = pendingAmt s x := by
        intro x
        simp [pendingAmt, hgifts]
      rw [Finset.sum_congr rfl (fun x _ => hpa x), husdc, hself]
      exact le_trans (hinv S) hge
  | createGift s c id a e now hc h =>
      obtain ⟨-, -, hz, -, b, hb, hseq⟩ := createGift_ok_elim _ _ c id a e now h
      obtain ⟨-, -, hbself⟩ := transferTok_spec s.usdc c s.self a b hb hc
      have hgifts : s'.gifts = upd s.gifts id ⟨a, c, e, false⟩ := by rw [hseq]
      have husdc : s'.usdc = b := by rw [hseq]
      have hself : s'.self = s.self := by rw [hseq]
      have hpa := pendingAmt_upd s s' id ⟨a, c, e, false⟩ hgifts
      have hsum : S.sum (pendingAmt s') ≤ S.sum (pendingAmt s) + a := by
        refine sum_pointwise_bump (pendingAmt s) (pendingAmt s') id a
          (fun x hx => ?_) ?_ S
        · rw [hpa x]
          simp [hx]
        · rw [hpa id]
          simp
      rw [husdc, hself, hbself]
      have := hinv S
      omega
  | claim s hf sec w now h =>
      obtain ⟨-, -, hcl, -, hseq⟩ := claim_ok_elim _ _ hf sec w now h
      have hgifts : s'.gifts =
          upd s.gifts (hf sec) { s.gifts (hf sec) with claimed := true } := by
        rw [hseq]
      have husdc : s'.usdc = s.usdc := by rw [hseq]
      have hself : s'.self = s.self := by rw [hseq]
      have hpa := pendingAmt_upd s s' (hf sec)
        { s.gifts (hf sec) with claimed := true } hgifts
      rw [husdc, hself]
      refine le_trans (sum_drop_at_key (pendingAmt s) (pendingAmt s') (hf sec)
        (fun x hx => ?_) ?_ S) (hinv S)
      · rw [hpa x]
        simp [hx]
      · rw [hpa (hf sec)]
        simp
  | refund s c id now h =>
      obtain ⟨hamt, hcl, -, -, -, b, hb, hseq⟩ := refund_ok_elim _ _ c id now h
      have hgifts : s'.gifts =
          upd s.gifts id { s.gifts id with claimed := true } := by rw [hseq]
      have husdc : s'.usdc = b := by rw [hseq]
      have hself : s'.self = s.self := by rw [hseq]
      have hpa := pendingAmt_upd s s' id
        { s.gifts id with claimed := true } hgifts
      have hdrop : S.sum (pendingAmt s') + pendingAmt s id ≤
          (insert id S).sum (pendingAmt s) := by
        refine sum_zero_at_key (pendingAmt s) (pendingAmt s') id
          (fun x hx => ?_) ?_ S
        · rw [hpa x]
          simp [hx]
        · rw [hpa id]
          simp
      have hpend : pendingAmt s id = (s.gifts id).amount := by
        simp [pendingAmt, hcl]
      have hins := hinv (insert id S)
      rw [husdc, hself]
      by_cases hcself : c = s.self
      · rw [hcself] at hb
        obtain ⟨hle, hbeq⟩ := transferTok_elim s.usdc s.self s.self
          (s.gifts id).amount b hb
        have hbself : b s.self = s.usdc s.self := by
          rw [hbeq]
          simp [upd]
          omega
        rw [hbself]
        omega
      · obtain ⟨hle, hbsrc, -⟩ := transferTok_spec s.usdc s.self c
          (s.gifts id).amount b hb (fun he => hcself he.symm)
        rw [hbsrc]
        omega
  | extTransfer src dst amt b hsrc hb =>
      have hge : s.usdc s.self ≤ b s.self := by
        by_cases hd : s.self = dst
        · rw [hd]
          exact transferTok_dst_ge s.usdc src dst amt b hb
        · rw [transferTok_other s.usdc src dst amt b hb s.self
            (fun he => hsrc he.symm) hd]
      have hpa : ∀ x, pendingAmt { s with usdc := b } x = pendingAmt s x := by
        intro x
        simp [pendingAmt]
      rw [Finset.sum_congr rfl (fun x _ => hpa x)]
      exact le_trans (hinv S) hge

/-! ## Resolved entries are frozen forever -/

theorem step_claimed_pos (s s' : RailState) (hs : Step s s')
    (hcp : ∀ id, (s.gifts id).claimed = true → (s.gifts id).amount ≠ 0) :
    ∀ id, (s'.gifts id).claimed = true → (s'.gifts id).amount ≠ 0 := by
  intro id
  cases hs with
  | depositToSelf s c a h =>
      obtain ⟨-, b, -, hseq⟩ := depositToSelf_ok_elim _ _ c a h
      have hgifts : s'.gifts = s.gifts := by rw [hseq]
      rw [hgifts]
      exact hcp id
  | depositToAddress s c r a h =>
      obtain ⟨-, -, b, -, hseq⟩ := depositToAddress_ok_elim _ _ c r a h
      have hgifts : s'.gifts = s.gifts := by rw [hseq]
      rw [hgifts]
      exact hcp id
  | createGift s c cid a e now hc h =>
      obtain ⟨-, ha, -, -, b, -, hseq⟩ := createGift_ok_elim _ _ c cid a e now h
      have hgifts : s'.gifts = upd s.gifts cid ⟨a, c, e, false⟩ := by rw [hseq]
      rw [hgifts]
      by_cases hx : id = cid
      · subst hx
        simp [upd]
      · rw [upd_ne _ _ _ _ hx]
        exact hcp id
  | claim s hf sec w now h =>
      obtain ⟨-, hamt, -, -, hseq⟩ := claim_ok_elim _ _ hf sec w now h
      have hgifts : s'.gifts =
          upd s.gifts (hf sec) { s.gifts (hf sec) with claimed := true } := by
        rw [hseq]
      rw [hgifts]
      by_cases hx : id = hf sec
      · subst hx
        simpa [upd] using hamt
      · rw [upd_ne _ _ _ _ hx]
        exact hcp id
  | refund s c cid now h =>
      obtain ⟨hamt, -, -, -, -, b, -, hseq⟩ := refund_ok_elim _ _ c cid now h
      have hgifts : s'.gifts =
          upd s.gifts cid { s.gifts cid with claimed := true } := by rw [hseq]
      rw [hgifts]
      by_cases hx : id = cid
      · subst hx
        simpa [upd] using hamt
      · rw [upd_ne _ _ _ _ hx]
        exact hcp id
  | extTransfer src dst amt b hsrc hb =>
      exact hcp id

theorem reach_claimed_pos (s : RailState) (hr : Reach s) :
    ∀ id, (s.gifts id).claimed = true → (s.gifts id).amount ≠ 0 := by
  induction hr with
  | init self usdc hyperCore =>
      intro id h
      simp [Gift.zero] at h
  | step s s' hr hs ih =>
      exact step_claimed_pos s s' hs ih

theorem step_resolved_frozen (s s' : RailState) (hs : Step s s')
    (hcp : ∀ k, (s.gifts k).claimed = true → (s.gifts k).amount ≠ 0)
    (id : Nat) (hres : (s.gifts id).claimed = true) :
    s'.gifts id = s.gifts id := by
  cases hs with
  | depositToSelf s c a h =>
      obtain ⟨-, b, -, hseq⟩ := depositToSelf_ok_elim _ _ c a h
      rw [hseq]
  | depositToAddress s c r a h =>
      obtain ⟨-, -, b, -, hseq⟩ := depositToAddress_ok_elim _ _ c r a h
      rw [hseq]
  | createGift s c cid a e now hc h =>
      obtain ⟨-, -, hz, -, b, -, hseq⟩ := createGift_ok_elim _ _ c cid a e now h
      have hgifts : s'.gifts = upd s.gifts cid ⟨a, c, e, false⟩ := by rw [hseq]
      rw [hgifts]
      have hne : id ≠ cid := by
        intro hx
        exact hcp id hres (by rw [hx]; exact hz)
      rw [upd_ne _ _ _ _ hne]
  | claim s hf sec w now h =>
      obtain ⟨-, -, hcl, -, hseq⟩ := claim_ok_elim _ _ hf sec w now h
      have hgifts : s'.gifts =
          upd s.gifts (hf sec) { s.gifts (hf sec) with claimed := true } := by
        rw [hseq]
      rw [hgifts]
      have hne : id ≠ hf sec := by
        intro hx
        rw [hx] at hres
        rw [hres] at hcl
        exact absurd hcl (by simp)
      rw [upd_ne _ _ _ _ hne]
  | refund s c cid now h =>
      obtain ⟨-, hcl, -, -, -, b, -, hseq⟩ := refund_ok_elim _ _ c cid now h
      have hgifts : s'.gifts =
          upd s.gifts cid { s.gifts cid with claimed := true } := by rw [hseq]
      rw [hgifts]
      have hne : id ≠ cid := by
        intro hx
        rw [hx] at hres
        rw [hres] at hcl
        exact absurd hcl (by simp)
      rw [upd_ne _ _ _ _ hne]
  | extTransfer src dst amt b hsrc hb =>
      rfl

theorem steps_claimed_pos (s s' : RailState) (hst : Steps s s')
    (hcp : ∀ k, (s.gifts k).claimed = true → (s.gifts k).amount ≠ 0) :
    ∀ k, (s'.gifts k).claimed = true → (s'.gifts k).amount ≠ 0 := by
  induction hst with
  | refl => exact hcp
  | tail t t' hst hs ih => exact step_claimed_pos _ _ hs ih

theorem steps_resolved_frozen (s s' : RailState) (hst : Steps s s')
    (hcp : ∀ k, (s.gifts k).claimed = true → (s.gifts k).amount ≠ 0)
    (id : Nat) (hres : (s.gifts id).claimed = true) :
    s'.gifts id = s.gifts id := by
  induction hst with
  | refl => rfl
  | tail t t' hst hs ih =>
      have hcp' := steps_claimed_pos _ _ hst hcp
      have hres' : (t.gifts id).claimed = true := by rw [ih]; exact hres
      rw [step_resolved_frozen t t' hs hcp' id hres']
      exact ih

theorem claim_fails_on_resolved (s : RailState) (hf : Nat → Nat)
    (sec w now : Nat) (hres : (s.gifts (hf sec)).claimed = true) :
    isErr (claim s hf sec w now) = true := by
  by_cases hw : w = 0
  · simp [claim, isErr, hw]
  · by_cases hamt : (s.gifts (hf sec)).amount = 0
    · simp [claim, isErr, hw, hamt]
    · simp [claim, isErr, hw, hamt, hres]

theorem refund_fails_on_resolved (s : RailState) (c id now : Nat)
    (hres : (s.gifts id).claimed = true) :
    isErr (refund s c id now) = true := by
  by_cases hamt : (s.gifts id).amount = 0
  · simp [refund, isErr, hamt]
  · simp [refund, isErr, hamt, hres]

theorem reach_conservation (s : RailState) (hr : Reach s) :
    ∀ S : Finset Nat, S.sum (pendingAmt s) ≤ s.usdc s.self := by
  induction hr with
  | init self usdc hyperCore =>
      intro S
      have hz : ∀ x ∈ S,
          pendingAmt ⟨self, usdc, fun _ => Gift.zero, hyperCore⟩ x = 0 := by
        intro x _
        simp [pendingAmt, Gift.zero]
      rw [Finset.sum_eq_zero hz]
      exact Nat.zero_le _
  | step s s' hr hs ih =>
      exact step_conservation s s' hs ih

end HyperRail

/-! ## Conservation for the simple contract variant -/

namespace HyperRailV1

open HyperRail (upd transferTok upd_eq upd_ne transferTok_elim
  transferTok_dst_ge transferTok_other transferTok_spec
  sum_pointwise_bump sum_zero_at_key sum_drop_at_key)

theorem createGiftV1_ok_elim (s s' : LedgerV1) (c id a : Nat)
    (h : createGift s c id a = .ok s') :
    s.gifts id = 0 ∧ a ≠ 0 ∧
      ∃ b, transferTok s.usdc c s.self a = some b ∧
        s' = { s with usdc := b, gifts := upd s.gifts id a,
                      totalGifted := s.totalGifted + a } := by
  unfold createGift at h
  split at h
  · exact absurd h (by simp)
  rename_i hid
  split at h
  · exact absurd h (by simp)
  rename_i ha
  split at h
  · exact absurd h (by simp)
  rename_i b hb
  refine ⟨by omega, ha, b, hb, ?_⟩
  injection h with h
  exact h.symm

theorem bridgeV1_ok_elim (s s' : LedgerV1) (id a snd : Nat)
    (h : createGiftFromBridge s id a snd = .ok s') :
    s.gifts id = 0 ∧ a ≠ 0 ∧ s.totalGifted + a ≤ s.usdc s.self ∧
      s' = { s with gifts := upd s.gifts id a,
                    totalGifted := s.totalGifted + a } := by
  unfold createGiftFromBridge at h
  split at h
  · exact absurd h (by simp)
  rename_i hid
  split at h
  · exact absurd h (by simp)
  rename_i ha
  split at h
  · exact absurd h (by simp)
  rename_i hu
  split at h
  · exact absurd h (by simp)
  rename_i hav
  refine ⟨by omega, ha, by omega, ?_⟩
  injection h with h
  exact h.symm

theorem claimV1_ok_elim (s s' : LedgerV1) (hf : Nat → Nat) (sec toAddr : Nat)
    (h : claim s hf sec toAddr = .ok s') :
    s.gifts (hf sec) ≠ 0 ∧ s.claimed (hf sec) = false ∧
      s.gifts (hf sec) ≤ s.totalGifted ∧
      ∃ b, transferTok s.usdc s.self toAddr (s.gifts (hf sec)) = some b ∧
        s' = { s with usdc := b,
                      claimed := upd s.claimed (hf sec) true,
                      totalGifted := s.totalGifted - s.gifts (hf sec) } := by
  unfold claim at h
  split at h
  · exact absurd h (by simp)
  rename_i hid
  split at h
  · exact absurd h (by simp)
  rename_i hcl
  split at h
  · exact absurd h (by simp)
  rename_i hug
  split at h
  · exact absurd h (by simp)
  rename_i b hb
  refine ⟨hid, by simpa using hcl, by omega, b, hb, ?_⟩
  injection h with h
  exact h.symm

theorem stepV1_inv (s s' : LedgerV1) (hs : StepV1 s s')
    (h1 : ∀ S : Finset Nat, S.sum (pendingAmtV1 s) ≤ s.totalGifted)
    (h2 : s.totalGifted ≤ s.usdc s.self)
    (h3 : ∀ id, s.claimed id = true → s.gifts id ≠ 0) :
    (∀ S : Finset Nat, S.sum (pendingAmtV1 s') ≤ s'.totalGifted) ∧
      s'.totalGifted ≤ s'.usdc s'.self ∧
      (∀ id, s'.claimed id = true → s'.gifts id ≠ 0) := by
  cases hs with
  | createGift s c id a hc h =>
      obtain ⟨hz, ha, b, hb, hseq⟩ := createGiftV1_ok_elim _ _ c id a h
      obtain ⟨-, -, hbself⟩ := transferTok_spec s.usdc c s.self a b hb hc
      have hgifts : s'.gifts = upd s.gifts id a := by rw [hseq]
      have hcl : s'.claimed = s.claimed := by rw [hseq]
      have htg : s'.totalGifted = s.totalGifted + a := by rw [hseq]
      have husdc : s'.usdc = b := by rw [hseq]
      have hself : s'.self = s.self := by rw [hseq]
      refine ⟨?_, ?_, ?_⟩
      · intro S
        rw [htg]
        refine le_trans (sum_pointwise_bump (pendingAmtV1 s) (pendingAmtV1 s')
          id a (fun x hx => ?_) ?_ S) ?_
        · simp [pendingAmtV1, hgifts, hcl, upd, hx]
        · simp [pendingAmtV1, hgifts, hcl, upd]
          split <;> omega
        · have := h1 S
          omega
      · rw [htg, husdc, hself, hbself]
        omega
      · intro k hk
        rw [hcl] at hk
        rw [hgifts]
        by_cases hx : k = id
        · subst hx
          simpa [upd] using ha
        · rw [upd_ne _ _ _ _ hx]
          exact h3 k hk
  | createGiftFromBridge s id a snd h =>
      obtain ⟨hz, ha, hle, hseq⟩ := bridgeV1_ok_elim _ _ id a snd h
      have hgifts : s'.gifts = upd s.gifts id a := by rw [hseq]
      have hcl : s'.claimed = s.claimed := by rw [hseq]
      have htg : s'.totalGifted = s.totalGifted + a := by rw [hseq]
      have husdc : s'.usdc = s.usdc := by rw [hseq]
      have hself : s'.self = s.self := by rw [hseq]
      refine ⟨?_, ?_, ?_⟩
      · intro S
        rw [htg]
        refine le_trans (sum_pointwise_bump (pendingAmtV1 s) (pendingAmtV1 s')
          id a (fun x hx => ?_) ?_ S) ?_
        · simp [pendingAmtV1, hgifts, hcl, upd, hx]
        · simp [pendingAmtV1, hgifts, hcl, upd]
          split <;> omega
        · have := h1 S
          omega
      · rw [htg, husdc, hself]
        omega
      · intro k hk
        rw [hcl] at hk
        rw [hgifts]
        by_cases hx : k = id
        · subst hx
          simpa [upd] using ha
        · rw [upd_ne _ _ _ _ hx]
          exact h3 k hk
  | claim s hf sec toAddr h =>
      obtain ⟨hnz, hcl0, hletg, b, hb, hseq⟩ := claimV1_ok_elim _ _ hf sec toAddr h
      have hgifts : s'.gifts = s.gifts := by rw [hseq]
      have hcl : s'.claimed = upd s.claimed (hf sec) true := by rw [hseq]
      have htg : s'.totalGifted = s.totalGifted - s.gifts (hf sec) := by
        rw [hseq]
      have husdc : s'.usdc = b := by rw [hseq]
      have hself : s'.self = s.self := by rw [hseq]
      have hpend : pendingAmtV1 s (hf sec) = s.gifts (hf sec) := by
        simp [pendingAmtV1, hcl0]
      refine ⟨?_, ?_, ?_⟩
      · intro S
        have hdrop : S.sum (pendingAmtV1 s') + pendingAmtV1 s (hf sec) ≤
            (insert (hf sec) S).sum (pendingAmtV1 s) := by
          refine sum_zero_at_key (pendingAmtV1 s) (pendingAmtV1 s') (hf sec)
            (fun x hx => ?_) ?_ S
          · simp [pendingAmtV1, hgifts, hcl, upd, hx]
          · simp [pendingAmtV1, hgifts, hcl, upd]
        have hins := h1 (insert (hf sec) S)
        rw [htg]
        omega
      · rw [htg, husdc, hself]
        by_cases hts : s.self = toAddr
        · obtain ⟨hle, hbeq⟩ := transferTok_elim s.usdc s.self toAddr
            (s.gifts (hf sec)) b hb
          rw [← hts] at hbeq
          have hbself : b s.self = s.usdc s.self := by
            rw [hbeq]
            simp [upd]
            omega
          rw [hbself]
          omega
        · obtain ⟨hle, hbsrc, -⟩ := transferTok_spec s.usdc s.self toAddr
            (s.gifts (hf sec)) b hb hts
          rw [hbsrc]
          omega
      · intro k hk
        rw [hgifts]
        rw [hcl] at hk
        by_cases hx : k = hf sec
        · subst hx
          exact hnz
        · rw [upd_ne _ _ _ _ hx] at hk
          exact h3 k hk
  | extTransfer src dst amt b hsrc hb =>
      have hge : s.usdc s.self ≤ b s.self := by
        by_cases hd : s.self = dst
        · rw [hd]
          exact transferTok_dst_ge s.usdc src dst amt b hb
        · rw [transferTok_other s.usdc src dst amt b hb s.self
            (fun he => hsrc he.symm) hd]
      exact ⟨h1, le_trans h2 hge, h3⟩

theorem reachV1_inv (s : LedgerV1) (hr : ReachV1 s) :
    (∀ S : Finset Nat, S.sum (pendingAmtV1 s) ≤ s.totalGifted) ∧
      s.totalGifted ≤ s.usdc s.self ∧
      (∀ id, s.claimed id = true → s.gifts id ≠ 0) := by
  induction hr with
  | init self usdc =>
      refine ⟨?_, Nat.zero_le _, ?_⟩
      · intro S
        have hz : ∀ x ∈ S,
            pendingAmtV1 ⟨self, usdc, fun _ => 0, fun _ => false, 0⟩ x = 0 := by
          intro x _
          simp [pendingAmtV1]
        rw [Finset.sum_eq_zero hz]
      · intro id h
        simp at h
  | step s s' hr hs ih =>
      exact stepV1_inv s s' hs ih.1 ih.2.1 ih.2.2

end HyperRailV1


/-! ## Claim theorems -/

/-- C1: claim and refund are terminal and mutually exclusive.  Once
either operation has succeeded for an entry (which requires the entry
to have been unresolved before, last conjunct), every later
`claim` whose secret hashes to that id and every later `refund` of
that id revert, and the entry's stored fields never change again under
any further contract operations; hence at most one of claim/refund
ever succeeds per entry. -/
theorem claim_refund_terminal_exclusive (s s1 s2 : HyperRail.RailState)
    (id : Nat) (hr : HyperRail.Reach s)
    (hresolve :
      (∃ hf : Nat → Nat, ∃ sec w now : Nat, hf sec = id ∧
        HyperRail.claim s hf sec w now = .ok s1) ∨
      (∃ c now : Nat, HyperRail.refund s c id now = .ok s1))
    (hst : HyperRail.Steps s1 s2) :
    s2.gifts id = s1.gifts id ∧
    (s1.gifts id).claimed = true ∧
    (∀ hf : Nat → Nat, ∀ sec w now : Nat, hf sec = id →
      HyperRail.isErr (HyperRail.claim s2 hf sec w now) = true) ∧
    (∀ c now : Nat, HyperRail.isErr (HyperRail.refund s2 c id now) = true) ∧
    (s.gifts id).claimed = false := by
  have hstep : HyperRail.Step s s1 ∧ (s1.gifts id).claimed = true ∧
      (s.gifts id).claimed = false := by
    rcases hresolve with ⟨hf, sec, w, now, hsec, hok⟩ | ⟨c, now, hok⟩
    · obtain ⟨-, -, hcl, -, hseq⟩ := HyperRail.claim_ok_elim _ _ hf sec w now hok
      refine ⟨HyperRail.Step.claim s s1 hf sec w now hok, ?_, ?_⟩
      · have hgifts : s1.gifts = HyperRail.upd s.gifts (hf sec)
            { s.gifts (hf sec) with claimed := true } := by rw [hseq]
        rw [hgifts, ← hsec, HyperRail.upd_eq]
      · rw [← hsec]
        exact hcl
    · obtain ⟨-, hcl, -, -, -, b, -, hseq⟩ := HyperRail.refund_ok_elim _ _ c id now hok
      refine ⟨HyperRail.Step.refund s s1 c id now hok, ?_, hcl⟩
      have hgifts : s1.gifts = HyperRail.upd s.gifts id
          { s.gifts id with claimed := true } := by rw [hseq]
      rw [hgifts, HyperRail.upd_eq]
  obtain ⟨hs01, hres1, hunres0⟩ := hstep
  have hr1 : HyperRail.Reach s1 := HyperRail.Reach.step s s1 hr hs01
  have hcp1 := HyperRail.reach_claimed_pos s1 hr1
  have hfrozen := HyperRail.steps_resolved_frozen s1 s2 hst hcp1 id hres1
  have hres2 : (s2.gifts id).claimed = true := by rw [hfrozen]; exact hres1
  refine ⟨hfrozen, hres1, ?_, ?_, hunres0⟩
  · intro hf sec w now hsec
    exact HyperRail.claim_fails_on_resolved s2 hf sec w now (by rw [hsec]; exact hres2)
  · intro c now
    exact HyperRail.refund_fails_on_resolved s2 c id now hres2

/-- Witness for C1: after the concrete claim resolving gift 7, a
repeat claim and a refund both revert. -/
theorem claim_refund_terminal_exclusive_witness :
    HyperRail.isErr (HyperRail.claim Fx.s2 (fun x => x) 7 2 1) = true ∧
    HyperRail.isErr (HyperRail.refund Fx.s2 3 7 5) = true := by
  have hr1 : HyperRail.Reach Fx.s1 :=
    HyperRail.Reach.step Fx.s0 Fx.s1
      (HyperRail.Reach.init 10 Fx.usdcA (fun _ => 0))
      (HyperRail.Step.createGift Fx.s0 Fx.s1 3 7 100 0 0 (by decide) rfl)
  have h := claim_refund_terminal_exclusive Fx.s1 Fx.s2 Fx.s2 7 hr1
    (Or.inl ⟨fun x => x, 7, 2, 0, rfl, rfl⟩) (HyperRail.Steps.refl Fx.s2)
  exact ⟨h.2.2.1 (fun x => x) 7 2 1 rfl, h.2.2.2.1 3 5⟩

/-- C2: conservation.  In every reachable state of the main contract
(any sequence of deposits, gift creations, claims, refunds and
external USDC arrivals) the held USDC balance is at least the sum of
the amounts of every finite family of distinct pending entries; the
same holds in the simple bridge variant (whose operations include
`createGiftFromBridge`).  The balance may exceed the pending sum
(unallocated deposits), never fall below it. -/
theorem ledger_conservation (s : HyperRail.RailState)
    (t : HyperRailV1.LedgerV1)
    (hr : HyperRail.Reach s) (ht : HyperRailV1.ReachV1 t) :
    (∀ S : Finset Nat,
      S.sum (HyperRail.pendingAmt s) ≤ HyperRail.getContractBalance s) ∧
    (∀ S : Finset Nat,
      S.sum (HyperRailV1.pendingAmtV1 t) ≤ t.usdc t.self) := by
  refine ⟨fun S => HyperRail.reach_conservation s hr S, fun S => ?_⟩
  have h := HyperRailV1.reachV1_inv t ht
  exact le_trans (h.1 S) h.2.1

/-- Witness for C2: evaluated on the concrete one-gift states of both
contract variants. -/
theorem ledger_conservation_witness :
    ({7} : Finset Nat).sum (HyperRail.pendingAmt Fx.s1) ≤
      HyperRail.getContractBalance Fx.s1 ∧
    ({1} : Finset Nat).sum (HyperRailV1.pendingAmtV1 Fx.t1) ≤
      Fx.t1.usdc Fx.t1.self := by
  have hr1 : HyperRail.Reach Fx.s1 :=
    HyperRail.Reach.step Fx.s0 Fx.s1
      (HyperRail.Reach.init 10 Fx.usdcA (fun _ => 0))
      (HyperRail.Step.createGift Fx.s0 Fx.s1 3 7 100 0 0 (by decide) rfl)
  have ht1 : HyperRailV1.ReachV1 Fx.t1 :=
    HyperRailV1.ReachV1.step Fx.t0 Fx.t1
      (HyperRailV1.ReachV1.init 20 Fx.usdcB)
      (HyperRailV1.StepV1.createGift Fx.t0 Fx.t1 5 1 50 (by decide) rfl)
  have h := ledger_conservation Fx.s1 Fx.t1 hr1 ht1
  exact ⟨h.1 {7}, h.2 {1}⟩

/-- C3 (amended): `claim(claimSecret, destination)` computes
`claimId = hash(claimSecret)` and (for a nonzero destination, cf. the
separate zero-destination guard) fails with `gift not found` when no
entry exists, `already claimed` when the entry is resolved, `expired`
when expiry is set and has passed; otherwise it succeeds, marks the
entry claimed, and credits `destination`'s HyperCore balance by
`amount` — the contract's held USDC balance is NOT debited (the
simulated bridge keeps the USDC in the contract). -/
theorem claim_spec (s : HyperRail.RailState) (hf : Nat → Nat)
    (sec w now : Nat) (hw : w ≠ 0) :
    ((s.gifts (hf sec)).amount = 0 →
      HyperRail.claim s hf sec w now = .error "gift not found") ∧
    ((s.gifts (hf sec)).amount ≠ 0 → (s.gifts (hf sec)).claimed = true →
      HyperRail.claim s hf sec w now = .error "already claimed") ∧
    ((s.gifts (hf sec)).amount ≠ 0 → (s.gifts (hf sec)).claimed = false →
      (s.gifts (hf sec)).expiry ≠ 0 → (s.gifts (hf sec)).expiry < now →
      HyperRail.claim s hf sec w now = .error "expired") ∧
    ((s.gifts (hf sec)).amount ≠ 0 → (s.gifts (hf sec)).claimed = false →
      ((s.gifts (hf sec)).expiry = 0 ∨ now ≤ (s.gifts (hf sec)).expiry) →
      HyperRail.isErr (HyperRail.claim s hf sec w now) = false ∧
      ((HyperRail.postState (HyperRail.claim s hf sec w now) s).gifts
        (hf sec)).claimed = true ∧
      ((HyperRail.postState (HyperRail.claim s hf sec w now) s).gifts
        (hf sec)).amount = (s.gifts (hf sec)).amount ∧
      (HyperRail.postState (HyperRail.claim s hf sec w now) s).hyperCore w
        = s.hyperCore w + (s.gifts (hf sec)).amount ∧
      HyperRail.getContractBalance
          (HyperRail.postState (HyperRail.claim s hf sec w now) s)
        = HyperRail.getContractBalance s) := by
  refine ⟨?_, ?_, ?_, ?_⟩
  · intro hz
    simp [HyperRail.claim, hw, hz]
  · intro ha hcl
    simp [HyperRail.claim, hw, ha, hcl]
  · intro ha hcl hexp hlt
    have hne : ¬ ((s.gifts (hf sec)).expiry = 0 ∨
        now ≤ (s.gifts (hf sec)).expiry) := by
      push_neg
      omega
    simp [HyperRail.claim, hw, ha, hcl, hne]
  · intro ha hcl he
    have hok : HyperRail.claim s hf sec w now =
        .ok { s with
                gifts := HyperRail.upd s.gifts (hf sec)
                  { s.gifts (hf sec) with claimed := true },
                hyperCore := HyperRail.upd s.hyperCore w
                  (s.hyperCore w + (s.gifts (hf sec)).amount) } := by
      unfold HyperRail.claim
      rw [if_neg hw, if_neg ha, if_neg (by simp [hcl]), if_pos he]
    rw [hok]
    refine ⟨rfl, ?_, ?_, ?_, rfl⟩
    · simp [HyperRail.postState, HyperRail.upd]
    · simp [HyperRail.postState, HyperRail.upd]
    · simp [HyperRail.postState, HyperRail.upd]

/-- Counterexample to C3 as stated: on the concrete state `Fx.chainW`
the claim of the 100-unit gift succeeds yet `getContractBalance`
(the ledger's held balance) stays 100 — the success path does not
debit the held balance by `amount` as the claim asserts; the credit
goes to the destination's HyperCore balance instead. -/
theorem claim_spec_counterexample :
    HyperRail.isErr (HyperRail.claim Fx.chainW (fun x => x) 1 2 0) = false ∧
    (Fx.chainW.gifts 1).amount = 100 ∧
    HyperRail.getContractBalance Fx.chainW = 100 ∧
    HyperRail.getContractBalance
      (HyperRail.postState (HyperRail.claim Fx.chainW (fun x => x) 1 2 0)
        Fx.chainW) = 100 ∧
    (HyperRail.postState (HyperRail.claim Fx.chainW (fun x => x) 1 2 0)
      Fx.chainW).hyperCore 2 = 100 :=
  ⟨rfl, rfl, rfl, rfl, rfl⟩

/-- Witness for C3 (amended), at concrete inputs: a successful claim
and a `gift not found` failure. -/
theorem claim_spec_witness :
    HyperRail.isErr (HyperRail.claim Fx.chainW (fun x => x) 1 2 0) = false ∧
    HyperRail.claim Fx.chainW (fun x => x) 9 2 0 =
      .error "gift not found" := by
  have h := claim_spec Fx.chainW (fun x => x) 1 2 0 (by decide)
  have h2 := claim_spec Fx.chainW (fun x => x) 9 2 0 (by decide)
  exact ⟨(h.2.2.2 (by decide) (by decide) (by decide)).1, h2.1 (by decide)⟩

/-- C4: `createGift(claimId, amount, expiry)` (the ledger's
`createEntry`), for a nonzero claim id (cf. the separate zero-id
guard) and an external caller: fails with `gift exists` whenever the
id already denotes an entry — in particular also when that entry is
already resolved, since resolution never clears `amount`; fails with
`zero amount` when the amount is zero; fails with `invalid expiry`
when the expiry is nonzero and not strictly in the future; and
otherwise (caller funded) succeeds, debits the sender by `amount`,
credits the contract's held balance by `amount`, and stores the entry
as pending. -/
theorem createGift_spec (s : HyperRail.RailState) (c id a e now : Nat)
    (hr : HyperRail.Reach s) (hid : id ≠ 0) (hc : c ≠ s.self) :
    ((s.gifts id).amount ≠ 0 → a ≠ 0 →
      HyperRail.createGift s c id a e now = .error "gift exists") ∧
    ((s.gifts id).claimed = true → a ≠ 0 →
      HyperRail.createGift s c id a e now = .error "gift exists") ∧
    (a = 0 → HyperRail.createGift s c id a e now = .error "zero amount") ∧
    ((s.gifts id).amount = 0 → a ≠ 0 → e ≠ 0 → e ≤ now →
      HyperRail.createGift s c id a e now = .error "invalid expiry") ∧
    ((s.gifts id).amount = 0 → a ≠ 0 → (e = 0 ∨ now < e) → a ≤ s.usdc c →
      HyperRail.isErr (HyperRail.createGift s c id a e now) = false ∧
      (HyperRail.postState (HyperRail.createGift s c id a e now) s).usdc c
        = s.usdc c - a ∧
      HyperRail.getContractBalance
          (HyperRail.postState (HyperRail.createGift s c id a e now) s)
        = HyperRail.getContractBalance s + a ∧
      (HyperRail.postState (HyperRail.createGift s c id a e now) s).gifts id
        = ⟨a, c, e, false⟩) := by
  refine ⟨?_, ?_, ?_, ?_, ?_⟩
  · intro hex ha
    simp [HyperRail.createGift, hid, ha, hex]
  · intro hres ha
    have hex := HyperRail.reach_claimed_pos s hr id hres
    simp [HyperRail.createGift, hid, ha, hex]
  · intro ha
    simp [HyperRail.createGift, hid, ha]
  · intro hz ha hexp hle
    have hne : ¬ (e = 0 ∨ e > now) := by
      push_neg
      omega
    simp [HyperRail.createGift, hid, ha, hz, hne]
  · intro hz ha he hfund
    have hb : HyperRail.transferTok s.usdc c s.self a =
        some (HyperRail.upd (HyperRail.upd s.usdc c (s.usdc c - a)) s.self
          (HyperRail.upd s.usdc c (s.usdc c - a) s.self + a)) := by
      unfold HyperRail.transferTok
      rw [if_neg (by omega)]
    have hok : HyperRail.createGift s c id a e now =
        .ok { s with
                usdc := HyperRail.upd (HyperRail.upd s.usdc c (s.usdc c - a))
                  s.self (HyperRail.upd s.usdc c (s.usdc c - a) s.self + a),
                gifts := HyperRail.upd s.gifts id ⟨a, c, e, false⟩ } := by
      unfold HyperRail.createGift
      rw [if_neg hid, if_neg ha, if_neg (by simp [hz]), if_pos he, hb]
    rw [hok]
    have hcs : s.self ≠ c := fun hx => hc hx.symm
    refine ⟨rfl, ?_, ?_, ?_⟩
    · simp [HyperRail.postState, HyperRail.upd, hc]
    · simp [HyperRail.postState, HyperRail.getContractBalance,
        HyperRail.upd, hcs]
    · simp [HyperRail.postState, HyperRail.upd]

/-- Witness for C4, at concrete inputs: successful creation debits
sender 3 and credits the contract, and a duplicate creation reverts
with `gift exists`. -/
theorem createGift_spec_witness :
    HyperRail.isErr (HyperRail.createGift Fx.s0 3 7 100 0 0) = false ∧
    (HyperRail.postState (HyperRail.createGift Fx.s0 3 7 100 0 0) Fx.s0).usdc 3
      = 900 ∧
    HyperRail.createGift Fx.s1 3 7 100 0 0 = .error "gift exists" := by
  have h0 := createGift_spec Fx.s0 3 7 100 0 0
    (HyperRail.Reach.init 10 Fx.usdcA (fun _ => 0)) (by decide) (by decide)
  have hr1 : HyperRail.Reach Fx.s1 :=
    HyperRail.Reach.step Fx.s0 Fx.s1
      (HyperRail.Reach.init 10 Fx.usdcA (fun _ => 0))
      (HyperRail.Step.createGift Fx.s0 Fx.s1 3 7 100 0 0 (by decide) rfl)
  have h1 := createGift_spec Fx.s1 3 7 100 0 0 hr1 (by decide) (by decide)
  have hsucc := h0.2.2.2.2 (by decide) (by decide) (Or.inl rfl) (by decide)
  exact ⟨hsucc.1, by rw [hsucc.2.1]; decide, h1.1 (by decide) (by decide)⟩

/-- C5: `refund(claimId)` succeeds exactly when the entry exists and
is unresolved, the caller is the original sender, an expiry is set,
and it has passed — failing with `gift not found` / `already claimed`
/ `not sender` / `no expiry set` / `not expired` respectively
otherwise; on success it marks the entry resolved and transfers
`amount` back to the sender's own USDC balance, leaving every
HyperCore (trading-ledger) balance untouched. -/
theorem refund_spec (s : HyperRail.RailState) (c id now : Nat)
    (hr : HyperRail.Reach s) (hc : c ≠ s.self) :
    ((s.gifts id).amount = 0 →
      HyperRail.refund s c id now = .error "gift not found") ∧
    ((s.gifts id).amount ≠ 0 → (s.gifts id).claimed = true →
      HyperRail.refund s c id now = .error "already claimed") ∧
    ((s.gifts id).amount ≠ 0 → (s.gifts id).claimed = false →
      (s.gifts id).sender ≠ c →
      HyperRail.refund s c id now = .error "not sender") ∧
    ((s.gifts id).amount ≠ 0 → (s.gifts id).claimed = false →
      (s.gifts id).sender = c → (s.gifts id).expiry = 0 →
      HyperRail.refund s c id now = .error "no expiry set") ∧
    ((s.gifts id).amount ≠ 0 → (s.gifts id).claimed = false →
      (s.gifts id).sender = c → (s.gifts id).expiry ≠ 0 →
      now ≤ (s.gifts id).expiry →
      HyperRail.refund s c id now = .error "not expired") ∧
    ((s.gifts id).amount ≠ 0 → (s.gifts id).claimed = false →
      (s.gifts id).sender = c → (s.gifts id).expiry ≠ 0 →
      (s.gifts id).expiry < now →
      HyperRail.isErr (HyperRail.refund s c id now) = false ∧
      (HyperRail.postState (HyperRail.refund s c id now) s).gifts id
        = { s.gifts id with claimed := true } ∧
      (HyperRail.postState (HyperRail.refund s c id now) s).usdc c
        = s.usdc c + (s.gifts id).amount ∧
      (HyperRail.postState (HyperRail.refund s c id now) s).hyperCore
        = s.hyperCore) := by
  refine ⟨?_, ?_, ?_, ?_, ?_, ?_⟩
  · intro hz
    simp [HyperRail.refund, hz]
  · intro ha hcl
    simp [HyperRail.refund, ha, hcl]
  · intro ha hcl hns
    simp [HyperRail.refund, ha, hcl, hns]
  · intro ha hcl hsend hexp
    simp [HyperRail.refund, ha, hcl, hsend, hexp]
  · intro ha hcl hsend hexp hle
    simp [HyperRail.refund, ha, hcl, hsend, hexp]
    omega
  · intro ha hcl hsend hexp hlt
    have hfund : (s.gifts id).amount ≤ s.usdc s.self := by
      have hcons := HyperRail.reach_conservation s hr {id}
      have : ({id} : Finset Nat).sum (HyperRail.pendingAmt s)
          = (s.gifts id).amount := by
        simp [HyperRail.pendingAmt, hcl]
      omega
    have hb : HyperRail.transferTok s.usdc s.self c (s.gifts id).amount =
        some (HyperRail.upd
          (HyperRail.upd s.usdc s.self (s.usdc s.self - (s.gifts id).amount)) c
          (HyperRail.upd s.usdc s.self
            (s.usdc s.self - (s.gifts id).amount) c + (s.gifts id).amount)) := by
      unfold HyperRail.transferTok
      rw [if_neg (by omega)]
    have hok : HyperRail.refund s c id now =
        .ok { s with
                usdc := HyperRail.upd
                  (HyperRail.upd s.usdc s.self
                    (s.usdc s.self - (s.gifts id).amount)) c
                  (HyperRail.upd s.usdc s.self
                    (s.usdc s.self - (s.gifts id).amount) c
                    + (s.gifts id).amount),
                gifts := HyperRail.upd s.gifts id
                  { s.gifts id with claimed := true } } := by
      unfold HyperRail.refund
      rw [if_neg ha, if_neg (by simp [hcl]), if_neg (by simp [hsend]),
        if_neg hexp, if_neg (by omega), hb]
    rw [hok]
    refine ⟨rfl, ?_, ?_, rfl⟩
    · simp [HyperRail.postState, HyperRail.upd]
    · simp [HyperRail.postState, HyperRail.upd, hc]

/-- Witness for C5, at concrete inputs: the expired gift of `Fx.rs1`
is refunded to sender 3 (USDC balance back to 1000, HyperCore
untouched), while refunding before expiry fails `not expired`. -/
theorem refund_spec_witness :
    HyperRail.isErr (HyperRail.refund Fx.rs1 3 7 6) = false ∧
    (HyperRail.postState (HyperRail.refund Fx.rs1 3 7 6) Fx.rs1).usdc 3
      = 1000 ∧
    HyperRail.refund Fx.rs1 3 7 4 = .error "not expired" := by
  have hrr : HyperRail.Reach Fx.rs1 :=
    HyperRail.Reach.step Fx.s0 Fx.rs1
      (HyperRail.Reach.init 10 Fx.usdcA (fun _ => 0))
      (HyperRail.Step.createGift Fx.s0 Fx.rs1 3 7 100 5 0 (by decide) rfl)
  have h := refund_spec Fx.rs1 3 7 6 hrr (by decide)
  have h4 := refund_spec Fx.rs1 3 7 4 hrr (by decide)
  have hsucc := h.2.2.2.2.2 (by decide) (by decide) (by decide) (by decide)
    (by decide)
  refine ⟨hsucc.1, by rw [hsucc.2.2.1]; decide, ?_⟩
  exact h4.2.2.2.2.1 (by decide) (by decide) (by decide) (by decide) (by decide)

/-- C9: `createGift` rejects the all-zero claim id with
`invalid claimId` even when the amount is positive, the id unused and
the expiry valid, and `claim` rejects the zero destination with
`invalid wallet` before any entry lookup — for every state, whatever
the entry under the derived id. -/
theorem zero_inputs_rejected (s : HyperRail.RailState) (c a e now : Nat)
    (hf : Nat → Nat) (sec now2 : Nat)
    (ha : a ≠ 0) (hunused : s.gifts 0 = HyperRail.Gift.zero)
    (he : e = 0 ∨ now < e) :
    HyperRail.createGift s c 0 a e now = .error "invalid claimId" ∧
    HyperRail.claim s hf sec 0 now2 = .error "invalid wallet" := by
  constructor
  · simp [HyperRail.createGift]
  · simp [HyperRail.claim]

/-- Witness for C9 at concrete inputs. -/
theorem zero_inputs_rejected_witness :
    HyperRail.createGift Fx.s0 3 0 100 0 0 = .error "invalid claimId" ∧
    HyperRail.claim Fx.s1 (fun x => x) 7 0 0 = .error "invalid wallet" := by
  have h1 := zero_inputs_rejected Fx.s0 3 100 0 0 (fun x => x) 7 0
    (by decide) (by decide) (Or.inl rfl)
  have h2 := zero_inputs_rejected Fx.s1 3 100 0 0 (fun x => x) 7 0
    (by decide) (by decide) (Or.inl rfl)
  exact ⟨h1.1, h2.2⟩

/-- C10: a successful refund records the entry with the same terminal
`claimed` flag a successful claim sets, and amount/sender are never
cleared: from the same pre-state, the stored record after refund is
identical to the record after claim, and `getGiftStatus` returns
`(exists := true, claimable := false, amount := original)` after
either outcome — a refunded entry is indistinguishable from a claimed
one through the public query. -/
theorem refund_claim_same_record (s s1 s2 : HyperRail.RailState)
    (id c nowr nowc nowq w sec : Nat) (hf : Nat → Nat) (hsec : hf sec = id)
    (hrefund : HyperRail.refund s c id nowr = .ok s1)
    (hclaim : HyperRail.claim s hf sec w nowc = .ok s2) :
    s1.gifts id = { s.gifts id with claimed := true } ∧
    s2.gifts id = { s.gifts id with claimed := true } ∧
    s1.gifts id = s2.gifts id ∧
    HyperRail.getGiftStatus s1 id nowq
      = (true, false, (s.gifts id).amount) ∧
    HyperRail.getGiftStatus s2 id nowq
      = (true, false, (s.gifts id).amount) := by
  obtain ⟨hamt, -, -, -, -, b, -, hseq1⟩ :=
    HyperRail.refund_ok_elim _ _ c id nowr hrefund
  obtain ⟨-, -, -, -, hseq2⟩ :=
    HyperRail.claim_ok_elim _ _ hf sec w nowc hclaim
  have hg1 : s1.gifts id = { s.gifts id with claimed := true } := by
    rw [hseq1]
    exact HyperRail.upd_eq s.gifts id _
  have hg2 : s2.gifts id = { s.gifts id with claimed := true } := by
    rw [hseq2]
    simp only [hsec]
    exact HyperRail.upd_eq s.gifts id _
  refine ⟨hg1, hg2, by rw [hg1, hg2], ?_, ?_⟩
  · simp [HyperRail.getGiftStatus, hg1, hamt]
  · simp [HyperRail.getGiftStatus, hg2, hamt]

/-- Witness for C10: the two operations run from the same pre-state
`Fx.rs1` (gift of 100 expiring at 5); the refund happens at time 6
(after expiry) and the claim at time 0 (before expiry), and both
post-states answer `getGiftStatus` identically. -/
theorem refund_claim_same_record_witness :
    HyperRail.getGiftStatus
      (HyperRail.postState (HyperRail.refund Fx.rs1 3 7 6) Fx.rs1) 7 9
      = (true, false, 100) ∧
    HyperRail.getGiftStatus
      (HyperRail.postState (HyperRail.claim Fx.rs1 (fun x => x) 7 2 0)
        Fx.rs1) 7 9
      = (true, false, 100) := by
  have h := refund_claim_same_record Fx.rs1
    (HyperRail.postState (HyperRail.refund Fx.rs1 3 7 6) Fx.rs1)
    (HyperRail.postState (HyperRail.claim Fx.rs1 (fun x => x) 7 2 0) Fx.rs1)
    7 3 6 0 9 2 7 (fun x => x) rfl rfl rfl
  exact ⟨h.2.2.2.1, h.2.2.2.2⟩

/-! ## Worker lemmas -/

theorem handleClaim_db_unchanged (req : Worker.ClaimRequest)
    (env : Worker.WorkerEnv) (hf : Nat → Nat) (now : Nat) (txh : String)
    (ws : Worker.WorkerState) :
    ((Worker.handleClaim req env hf now txh ws).2).db = ws.db := by
  unfold Worker.handleClaim
  repeat first
  | rfl
  | split

theorem handleClaim_ok_elim (req : Worker.ClaimRequest)
    (env : Worker.WorkerEnv) (hf : Nat → Nat) (now : Nat) (txh : String)
    (ws : Worker.WorkerState)
    (hok : (Worker.handleClaim req env hf now txh ws).1.status = 200) :
    ¬(req.claimSecret = "" ∨ req.walletAddress = "") ∧
    Worker.matchesBytes32 req.claimSecret = true ∧
    Worker.matchesAddress req.walletAddress = true ∧
    ¬(env.relayerKey = "" ∨ env.giftContract = "") ∧
    ∃ chain2, HyperRail.claim ws.chain hf (Worker.hexToNat req.claimSecret)
        (Worker.hexToNat req.walletAddress) now = .ok chain2 ∧
      Worker.handleClaim req env hf now txh ws =
        (⟨200, [("success", "true"), ("txHash", txh)]⟩,
         { ws with chain := chain2 }) := by
  unfold Worker.handleClaim at hok
  split at hok
  · exact absurd hok (by simp)
  rename_i h1
  split at hok
  · exact absurd hok (by simp)
  rename_i h2
  split at hok
  · exact absurd hok (by simp)
  rename_i h3
  split at hok
  · exact absurd hok (by simp)
  rename_i h4
  split at hok
  · rename_i chain2 hcl
    refine ⟨h1, by simpa using h2, by simpa using h3, h4, chain2, hcl, ?_⟩
    unfold Worker.handleClaim
    rw [if_neg h1, if_neg h2, if_neg h3, if_neg h4, hcl]
  · rename_i e hcl
    split at hok
    · exact absurd hok (by simp)
    split at hok
    · exact absurd hok (by simp)
    split at hok
    · exact absurd hok (by simp)
    · exact absurd hok (by simp)

theorem handleClaim_resolved_409 (req : Worker.ClaimRequest)
    (env : Worker.WorkerEnv) (hf : Nat → Nat) (now : Nat) (txh : String)
    (ws : Worker.WorkerState)
    (h1 : ¬(req.claimSecret = "" ∨ req.walletAddress = ""))
    (h2 : Worker.matchesBytes32 req.claimSecret = true)
    (h3 : Worker.matchesAddress req.walletAddress = true)
    (h4 : ¬(env.relayerKey = "" ∨ env.giftContract = ""))
    (hw : Worker.hexToNat req.walletAddress ≠ 0)
    (hamt : (ws.chain.gifts
      (hf (Worker.hexToNat req.claimSecret))).amount ≠ 0)
    (hres : (ws.chain.gifts
      (hf (Worker.hexToNat req.claimSecret))).claimed = true) :
    Worker.handleClaim req env hf now txh ws
      = (⟨409, [("error", "Gift already claimed")]⟩, ws) := by
  have hcl : HyperRail.claim ws.chain hf (Worker.hexToNat req.claimSecret)
      (Worker.hexToNat req.walletAddress) now = .error "already claimed" := by
    unfold HyperRail.claim
    rw [if_neg hw, if_neg hamt, if_pos hres]
  unfold Worker.handleClaim
  rw [if_neg h1, if_neg (by simp [h2]), if_neg (by simp [h3]), if_neg h4, hcl]
  rfl

/-- C6 (amended): the worker's claim settlement is a single on-chain
escrow-claim step submitted by the relayer; no step cursor is
persisted — `handleClaim` never writes the gift-metadata store — and
once the claim has succeeded, retrying the same request does not
complete: it returns HTTP 409 `Gift already claimed` (the escrow
entry is already resolved) and leaves both the store and the chain
unchanged.  There is no settlement instruction that could be
double-submitted because no step beyond the escrow claim exists. -/
theorem handleClaim_single_step_retry (req : Worker.ClaimRequest)
    (env : Worker.WorkerEnv) (hf : Nat → Nat) (now now2 : Nat)
    (txh txh2 : String) (ws : Worker.WorkerState)
    (hok : (Worker.handleClaim req env hf now txh ws).1.status = 200) :
    (Worker.handleClaim req env hf now txh ws).2.db = ws.db ∧
    (Worker.handleClaim req env hf now2 txh2
        ((Worker.handleClaim req env hf now txh ws).2)).1
      = ⟨409, [("error", "Gift already claimed")]⟩ ∧
    (Worker.handleClaim req env hf now2 txh2
        ((Worker.handleClaim req env hf now txh ws).2)).2
      = (Worker.handleClaim req env hf now txh ws).2 := by
  obtain ⟨h1, h2, h3, h4, chain2, hcl, heq⟩ :=
    handleClaim_ok_elim req env hf now txh ws hok
  obtain ⟨hw, hamt, -, -, hseq⟩ := HyperRail.claim_ok_elim _ _ hf
    (Worker.hexToNat req.claimSecret) (Worker.hexToNat req.walletAddress)
    now hcl
  have hg : chain2.gifts (hf (Worker.hexToNat req.claimSecret)) =
      { ws.chain.gifts (hf (Worker.hexToNat req.claimSecret)) with
          claimed := true } := by
    rw [hseq]
    exact HyperRail.upd_eq _ _ _
  have hretry := handleClaim_resolved_409 req env hf now2 txh2
    { db := ws.db, chain := chain2 } h1 h2 h3 h4 hw
    (by simpa [hg] using hamt) (by simp [hg])
  rw [heq]
  exact ⟨rfl, by rw [hretry], by rw [hretry]⟩

/-- Counterexample to C6 as stated: on the concrete worker state, the
claim settlement succeeds (HTTP 200) in its single step, yet the
metadata store records nothing — no last-succeeded step is persisted
— and retrying the same claim does not complete using later steps: it
fails with HTTP 409 `Gift already claimed`. -/
theorem handleClaim_single_step_retry_counterexample :
    (Worker.handleClaim Fx.reqW Fx.envW (fun x => x) 0 "0xtxhash1"
      Fx.wsW).1.status = 200 ∧
    Fx.wsW2.db = Fx.wsW.db ∧
    (Worker.handleClaim Fx.reqW Fx.envW (fun x => x) 3 "0xtxhash2"
      Fx.wsW2).1 = ⟨409, [("error", "Gift already claimed")]⟩ :=
  ⟨rfl, rfl, rfl⟩

/-- Witness for C6 (amended), at the concrete inputs. -/
theorem handleClaim_single_step_retry_witness :
    (Worker.handleClaim Fx.reqW Fx.envW (fun x => x) 0 "0xtxhash1"
      Fx.wsW).2.db = Fx.wsW.db ∧
    (Worker.handleClaim Fx.reqW Fx.envW (fun x => x) 3 "0xtxhash2"
      ((Worker.handleClaim Fx.reqW Fx.envW (fun x => x) 0 "0xtxhash1"
        Fx.wsW).2)).1 = ⟨409, [("error", "Gift already claimed")]⟩ := by
  have h := handleClaim_single_step_retry Fx.reqW Fx.envW (fun x => x) 0 3
    "0xtxhash1" "0xtxhash2" Fx.wsW rfl
  exact ⟨h.1, h.2.1⟩

/-- C7 (amended): the single on-chain step of `handleClaim` invokes
the escrow `claim` with the request's `walletAddress` — the
recipient's own address — as destination: on success the recipient's
HyperCore balance is credited by the gift amount and every other
address, in particular the orchestrator/relayer's own address when it
differs from the recipient, is left untouched.  No orchestrator
custodial address ever holds the funds. -/
theorem handleClaim_credits_recipient (req : Worker.ClaimRequest)
    (env : Worker.WorkerEnv) (hf : Nat → Nat) (now : Nat) (txh : String)
    (ws : Worker.WorkerState)
    (hok : (Worker.handleClaim req env hf now txh ws).1.status = 200) :
    (Worker.handleClaim req env hf now txh ws).2.chain.hyperCore
        (Worker.hexToNat req.walletAddress)
      = ws.chain.hyperCore (Worker.hexToNat req.walletAddress) +
        (ws.chain.gifts (hf (Worker.hexToNat req.claimSecret))).amount ∧
    (∀ x, x ≠ Worker.hexToNat req.walletAddress →
      (Worker.handleClaim req env hf now txh ws).2.chain.hyperCore x
        = ws.chain.hyperCore x) ∧
    (env.relayerAddr ≠ Worker.hexToNat req.walletAddress →
      (Worker.handleClaim req env hf now txh ws).2.chain.hyperCore
          env.relayerAddr
        = ws.chain.hyperCore env.relayerAddr) := by
  obtain ⟨h1, h2, h3, h4, chain2, hcl, heq⟩ :=
    handleClaim_ok_elim req env hf now txh ws hok
  obtain ⟨hw, hamt, -, -, hseq⟩ := HyperRail.claim_ok_elim _ _ hf
    (Worker.hexToNat req.claimSecret) (Worker.hexToNat req.walletAddress)
    now hcl
  have hcore : chain2.hyperCore = HyperRail.upd ws.chain.hyperCore
      (Worker.hexToNat req.walletAddress)
      (ws.chain.hyperCore (Worker.hexToNat req.walletAddress) +
        (ws.chain.gifts (hf (Worker.hexToNat req.claimSecret))).amount) := by
    rw [hseq]
  rw [heq]
  refine ⟨?_, ?_, ?_⟩
  · rw [hcore]
    exact HyperRail.upd_eq _ _ _
  · intro x hx
    rw [hcore]
    exact HyperRail.upd_ne _ _ _ x hx
  · intro hx
    rw [hcore]
    exact HyperRail.upd_ne _ _ _ env.relayerAddr hx

/-- Counterexample to C7 as stated: on the concrete worker state the
relayer (address 9, derived from the configured key) submits the
claim, yet the funds land directly at the recipient's wallet
(address 2) — the orchestrator's own address holds nothing after the
step. -/
theorem handleClaim_credits_recipient_counterexample :
    (Worker.handleClaim Fx.reqW Fx.envW (fun x => x) 0 "0xtxhash1"
      Fx.wsW).1.status = 200 ∧
    Fx.envW.relayerAddr = 9 ∧
    Worker.hexToNat Fx.reqW.walletAddress = 2 ∧
    Fx.wsW2.chain.hyperCore 2 = 100 ∧
    Fx.wsW2.chain.hyperCore 9 = 0 :=
  ⟨rfl, rfl, rfl, rfl, rfl⟩

/-- Witness for C7 (amended), at the concrete inputs. -/
theorem handleClaim_credits_recipient_witness :
    (Worker.handleClaim Fx.reqW Fx.envW (fun x => x) 0 "0xtxhash1"
      Fx.wsW).2.chain.hyperCore 2 = 100 ∧
    (Worker.handleClaim Fx.reqW Fx.envW (fun x => x) 0 "0xtxhash1"
      Fx.wsW).2.chain.hyperCore 9 = 0 := by
  have h := handleClaim_credits_recipient Fx.reqW Fx.envW (fun x => x) 0
    "0xtxhash1" Fx.wsW rfl
  refine ⟨?_, ?_⟩
  · have h1 := h.1
    simpa using h1
  · have h2 := h.2.2 (by decide)
    simpa using h2

/-- C8 (amended): for a stored claimId, `handleGetGift` (the
`getRecord` lifecycle query) returns HTTP 200 with exactly the fields
`claimId`, `senderAddress`, `amount` and `createdAt` — it contains
`amount` and `senderAddress` but NO `status` field (the store has no
lifecycle column); for an unknown claimId it fails with HTTP 404
`Gift not found`. -/
theorem handleGetGift_spec (claimId : String) (ws : Worker.WorkerState) :
    (∀ r, ws.db.find? (fun x => x.claim_id == claimId) = some r →
      Worker.handleGetGift claimId ws =
        ⟨200, [("claimId", r.claim_id), ("senderAddress", r.sender_address),
               ("amount", r.amount), ("createdAt", r.created_at)]⟩ ∧
      Worker.bodyField (Worker.handleGetGift claimId ws) "senderAddress"
        = some r.sender_address ∧
      Worker.bodyField (Worker.handleGetGift claimId ws) "amount"
        = some r.amount ∧
      Worker.bodyField (Worker.handleGetGift claimId ws) "status" = none) ∧
    (ws.db.find? (fun x => x.claim_id == claimId) = none →
      Worker.handleGetGift claimId ws
        = ⟨404, [("error", "Gift not found")]⟩) := by
  constructor
  · intro r hfind
    have heq : Worker.handleGetGift claimId ws =
        ⟨200, [("claimId", r.claim_id), ("senderAddress", r.sender_address),
               ("amount", r.amount), ("createdAt", r.created_at)]⟩ := by
      unfold Worker.handleGetGift
      rw [hfind]
    refine ⟨heq, ?_, ?_, ?_⟩ <;> rw [heq] <;> rfl
  · intro hfind
    unfold Worker.handleGetGift
    rw [hfind]

/-- Counterexample to C8 as stated: on the concrete worker store the
stored record is returned with HTTP 200, yet the body holds no
`status` field at all — in particular none of `pending_bridge`,
`creating_gift`, `completed`, `failed`, `claimed`. -/
theorem handleGetGift_spec_counterexample :
    (Worker.handleGetGift "0xclaim1" Fx.wsW).status = 200 ∧
    Worker.bodyField (Worker.handleGetGift "0xclaim1" Fx.wsW) "amount"
      = some "100.00" ∧
    Worker.bodyField (Worker.handleGetGift "0xclaim1" Fx.wsW) "senderAddress"
      = some "0xsenderaddr" ∧
    Worker.bodyField (Worker.handleGetGift "0xclaim1" Fx.wsW) "status"
      = none :=
  ⟨rfl, rfl, rfl, rfl⟩

/-- Witness for C8 (amended), at the concrete inputs: the stored row
is returned without a status field, and an unknown id gives 404. -/
theorem handleGetGift_spec_witness :
    Worker.bodyField (Worker.handleGetGift "0xclaim1" Fx.wsW) "status"
      = none ∧
    Worker.handleGetGift "0xmissing" Fx.wsW
      = ⟨404, [("error", "Gift not found")]⟩ := by
  have h1 := handleGetGift_spec "0xclaim1" Fx.wsW
  have h2 := handleGetGift_spec "0xmissing" Fx.wsW
  exact ⟨(h1.1 ⟨"0xclaim1", "0xsenderaddr", "100.00", "2024-01-01 00:00:00"⟩
    rfl).2.2.2, h2.2 rfl⟩
